import Mathlib

/-!
# Formal model of the option pricing repository

Shallow embedding of `src/binomial_option.py` and `src/monte_carlo_option.py`.

Python float arithmetic is modelled over the rationals.  The transcendental
library helpers `math.exp` and `math.sqrt` are passed in as explicit function
parameters `fexp` and `fsqrt`: the structural claims under scrutiny hold for
every choice of those functions, and the few claims that need a genuine fact
about the exponential state it as an explicit hypothesis (`fexp 0 = 1`, which
holds exactly for IEEE `math.exp`).  Python operations that can raise are
modelled in the `Except` monad; in the two places where a division's divisor
is provably non-zero after validation (`dt = maturity / steps` and the mean
`sum / len` over a non-empty payoff list) plain field division is used, which
agrees with Python there.
-/

namespace OptionPricing

/-- Errors raised by the pricing engines.  The source raises `ValueError`
with a message for validation failures and for the arbitrage check, and an
unguarded division can raise Python `ZeroDivisionError`. -/
inductive PricingError where
  | validation : String → PricingError
  | arbitrage : PricingError
  | zeroDivision : PricingError
deriving DecidableEq, Repr

/-- Python float division: raises `ZeroDivisionError` when the divisor is
zero, otherwise exact division. -/
def pydiv (a b : ℚ) : Except PricingError ℚ :=
  if b = 0 then .error .zeroDivision else .ok (a / b)

/-- The `OptionType` literal of `binomial_option.py` (`"call" | "put"`). -/
inductive OptionType where
  | call
  | put
deriving DecidableEq, Repr

/-- Source `_validate_parameters` (binomial_option.py lines 15-32): checks
spot, strike, maturity, steps and volatility, in that order.  The `rate`
argument is accepted but never examined, exactly as in the source. -/
def _validate_parameters (spot strike maturity rate volatility : ℚ)
    (steps : ℤ) : Except PricingError Unit :=
  if spot ≤ 0 then .error (.validation ("Spot price must be positive."))
  else if strike ≤ 0 then .error (.validation ("Strike price must be positive."))
  else if maturity ≤ 0 then .error (.validation ("Maturity must be positive."))
  else if steps ≤ 0 then .error (.validation ("Steps must be a positive integer."))
  else if volatility < 0 then .error (.validation ("Volatility must be non-negative."))
  else .ok ()

/-- Container mirroring `BinomialTreeResult`. -/
structure BinomialTreeResult where
  price : ℚ
  asset_prices : List (List ℚ)
  option_values : List (List ℚ)
deriving DecidableEq, Repr

/-- Terminal/intrinsic payoff of a node (binomial_option.py lines 94-99 and
112-117): `max(price - strike, 0)` for a call, `max(strike - price, 0)` for
a put. -/
def terminal_payoff (option_type : OptionType) (strike price : ℚ) : ℚ :=
  match option_type with
  | .call => max (price - strike) 0
  | .put => max (strike - price) 0

/-- One level of the asset price lattice (binomial_option.py line 88):
`[spot * up**j * down**(step-j) for j in range(step+1)]`. -/
def asset_level (spot up down : ℚ) (step : ℕ) : List ℚ :=
  (List.range (step + 1)).map (fun j => spot * up ^ j * down ^ (step - j))

/-- The full asset price lattice (binomial_option.py lines 86-89). -/
def asset_prices_list (spot up down : ℚ) (steps : ℕ) : List (List ℚ) :=
  (List.range (steps + 1)).map (fun step => asset_level spot up down step)

/-- One backward-induction step (binomial_option.py lines 105-122): from the
level `next` at `step+1`, build the level at `step` (which has `step+1`
nodes). -/
def back_step (discount probability strike : ℚ) (option_type : OptionType)
    (american : Bool) (asset_lev next : List ℚ) (step : ℕ) : List ℚ :=
  (List.range (step + 1)).map (fun node =>
    let continuation := discount *
      (probability * next.getD (node + 1) 0 + (1 - probability) * next.getD node 0)
    if american then
      max continuation (terminal_payoff option_type strike (asset_lev.getD node 0))
    else continuation)

/-- The option-value level that sits `k` backward steps above the terminal
level of a lattice with `steps` steps; `option_level ... k` is the level at
step `steps - k`.  `k = 0` is the terminal level. -/
def option_level (discount probability strike : ℚ) (option_type : OptionType)
    (american : Bool) (spot up down : ℚ) (steps : ℕ) (terminal : List ℚ) :
    ℕ → List ℚ
  | 0 => terminal
  | k + 1 =>
      back_step discount probability strike option_type american
        (asset_level spot up down (steps - (k + 1)))
        (option_level discount probability strike option_type american
          spot up down steps terminal k)
        (steps - (k + 1))

/-- The whole `option_values` table: entry `s` is the level at step `s`,
i.e. `steps - s` backward steps above the terminal level. -/
def option_values_list (discount probability strike : ℚ)
    (option_type : OptionType) (american : Bool) (spot up down : ℚ)
    (steps : ℕ) (terminal : List ℚ) : List (List ℚ) :=
  (List.range (steps + 1)).map (fun s =>
    option_level discount probability strike option_type american
      spot up down steps terminal (steps - s))

/-- Derived constant `dt = maturity / steps` (binomial_option.py line 76). -/
def crr_dt (maturity : ℚ) (N : ℕ) : ℚ := maturity / (N : ℚ)

/-- Derived constant `up = exp(volatility * sqrt(dt))` (line 77). -/
def crr_up (fexp fsqrt : ℚ → ℚ) (maturity volatility : ℚ) (N : ℕ) : ℚ :=
  fexp (volatility * fsqrt (crr_dt maturity N))

/-- Derived constant `down = 1 / up` (line 78). -/
def crr_down (fexp fsqrt : ℚ → ℚ) (maturity volatility : ℚ) (N : ℕ) : ℚ :=
  1 / crr_up fexp fsqrt maturity volatility N

/-- Derived constant `growth = exp((rate - dividend) * dt)` (line 79). -/
def crr_growth (fexp : ℚ → ℚ) (maturity rate dividend : ℚ) (N : ℕ) : ℚ :=
  fexp ((rate - dividend) * crr_dt maturity N)

/-- Derived constant `probability = (growth - down) / (up - down)` (line 80). -/
def crr_probability (fexp fsqrt : ℚ → ℚ)
    (maturity rate dividend volatility : ℚ) (N : ℕ) : ℚ :=
  (crr_growth fexp maturity rate dividend N -
      crr_down fexp fsqrt maturity volatility N) /
    (crr_up fexp fsqrt maturity volatility N -
      crr_down fexp fsqrt maturity volatility N)

/-- Derived constant `discount = exp(-rate * dt)` (line 102). -/
def crr_discount (fexp : ℚ → ℚ) (maturity rate : ℚ) (N : ℕ) : ℚ :=
  fexp (-(rate * crr_dt maturity N))

/-- The successful outcome of `binomial_option_price` once the derived
constants are known (binomial_option.py lines 85-126). -/
def binomial_result (discount probability strike : ℚ)
    (option_type : OptionType) (american : Bool) (spot up down : ℚ)
    (N : ℕ) : BinomialTreeResult :=
  let asset_prices := asset_prices_list spot up down N
  let terminal := (asset_prices.getLastD []).map
    (fun price => terminal_payoff option_type strike price)
  let option_values := option_values_list discount probability strike
    option_type american spot up down N terminal
  ⟨(option_values.getD 0 []).getD 0 0, asset_prices, option_values⟩

/-- Source `binomial_option_price` (binomial_option.py lines 44-126).
`steps` enters as an integer (so that non-positive step counts reach the
validator); after validation it is positive and is used as the natural
number `steps.toNat`.  The two divisions whose divisor is not known to be
non-zero (`down = 1 / up` and the risk-neutral probability) are modelled
with `pydiv`.  The `option_type` check of lines 73-74 is subsumed by the
`OptionType` inductive, which can only hold `"call"` or `"put"`. -/
def binomial_option_price (fexp fsqrt : ℚ → ℚ)
    (spot strike maturity rate volatility : ℚ) (steps : ℤ)
    (option_type : OptionType) (american : Bool) (dividend : ℚ) :
    Except PricingError BinomialTreeResult :=
  match _validate_parameters spot strike maturity rate volatility steps with
  | .error e => .error e
  | .ok _ =>
    match pydiv 1 (crr_up fexp fsqrt maturity volatility steps.toNat) with
    | .error e => .error e
    | .ok down =>
      match pydiv (crr_growth fexp maturity rate dividend steps.toNat - down)
          (crr_up fexp fsqrt maturity volatility steps.toNat - down) with
      | .error e => .error e
      | .ok probability =>
        if 0 ≤ probability ∧ probability ≤ 1 then
          .ok (binomial_result (crr_discount fexp maturity rate steps.toNat)
            probability strike option_type american spot
            (crr_up fexp fsqrt maturity volatility steps.toNat) down steps.toNat)
        else .error .arbitrage

/-- Source `_validate_positive` (monte_carlo_option.py lines 12-14). -/
def _validate_positive (name : String) (value : ℚ) :
    Except PricingError Unit :=
  if value ≤ 0 then .error (.validation (name ++ (" must be positive.")))
  else .ok ()

/-- Source `_validate_inputs` (monte_carlo_option.py lines 17-25): checks
spot, maturity, steps, paths positive and volatility non-negative.  As in
the source, `rate` is accepted but never examined. -/
def _validate_inputs (spot maturity rate volatility : ℚ)
    (steps paths : ℤ) : Except PricingError Unit :=
  match _validate_positive ("spot") spot with
  | .error e => .error e
  | .ok _ =>
    match _validate_positive ("maturity") maturity with
    | .error e => .error e
    | .ok _ =>
      match _validate_positive ("steps") ((steps : ℚ)) with
      | .error e => .error e
      | .ok _ =>
        match _validate_positive ("paths") ((paths : ℚ)) with
        | .error e => .error e
        | .ok _ =>
          if volatility < 0 then
            .error (.validation ("volatility must be non-negative."))
          else .ok ()

/-- Container mirroring `MonteCarloResult`. -/
structure MonteCarloResult where
  price : ℚ
  payoffs : List ℚ
  paths : List (List ℚ)
deriving DecidableEq, Repr

/-- The inner loop of a single trial (monte_carlo_option.py lines 155-160):
starting from the running `price` and the draw counter `k`, perform `n`
increments, returning the final running price together with the list of
appended prices.  The standard-normal source `gauss(0, 1)` is the injected
stream `normals`, consumed one draw per increment. -/
def run_steps (fexp : ℚ → ℚ) (drift diffusion : ℚ) (normals : ℕ → ℚ) :
    ℚ → ℕ → ℕ → ℚ × List ℚ
  | price, _, 0 => (price, [])
  | price, k, n + 1 =>
      let p := price * fexp (drift + diffusion * normals k)
      let rest := run_steps fexp drift diffusion normals p (k + 1) n
      (rest.1, p :: rest.2)

/-- The successful outcome of `monte_carlo_option_price`
(monte_carlo_option.py lines 147-167) once validation has passed, for a
lattice with `N` steps per path and `M` paths. -/
def monte_carlo_result (fexp fsqrt : ℚ → ℚ) (normals : ℕ → ℚ)
    (spot maturity rate volatility : ℚ) (N M : ℕ)
    (payoff : ℚ → List ℚ → ℚ) : MonteCarloResult :=
  let dt := maturity / (N : ℚ)
  let drift := (rate - 1 / 2 * volatility * volatility) * dt
  let diffusion := volatility * fsqrt dt
  let trials := (List.range M).map (fun i =>
    run_steps fexp drift diffusion normals spot (i * N) N)
  let simulated_paths := trials.map (fun t => spot :: t.2)
  let payoffs := trials.map (fun t => payoff t.1 (spot :: t.2))
  let price_estimate :=
    fexp (-(rate * maturity)) * payoffs.sum / (payoffs.length : ℚ)
  ⟨price_estimate, payoffs, simulated_paths⟩

/-- Source `monte_carlo_option_price` (monte_carlo_option.py lines 133-167).
Trial `i` consumes draws `i*steps, ..., i*steps + steps - 1` of the injected
normal stream, matching the sequential consumption of the source's single
global generator.  The `payoff` callable is a pure function of the terminal
price and the full path, as the sandbox produces. -/
def monte_carlo_option_price (fexp fsqrt : ℚ → ℚ) (normals : ℕ → ℚ)
    (spot maturity rate volatility : ℚ) (steps paths : ℤ)
    (payoff : ℚ → List ℚ → ℚ) : Except PricingError MonteCarloResult :=
  match _validate_inputs spot maturity rate volatility steps paths with
  | .error e => .error e
  | .ok _ =>
    .ok (monte_carlo_result fexp fsqrt normals spot maturity rate volatility
      steps.toNat paths.toNat payoff)

/-! ## The payoff expression sandbox

Model of `_ExpressionValidator` and `payoff_from_expression`
(monte_carlo_option.py lines 28-123).  Python expression syntax trees are
embedded as the inductive `PyExpr`, whose constructors are exactly the node
kinds of the validator whitelist (`_allowed_nodes`); every node kind outside
the whitelist (lambdas, comprehensions, bitwise/membership operators, ...)
is represented by the constructor `unsupported`, which the validator rejects
just as `visit` rejects non-whitelisted kinds.  The host facilities the
source leans on are explicit parameters: the list `mathDir` stands for
`dir(math)` (its exact contents are version dependent, so theorems quantify
over it wherever possible), and an `EvalCtx` carries the behaviour of the
`math` functions, of `getattr`, and of float power with non-integral
exponent, none of which the claims constrain. -/

/-- Arithmetic operator kinds of the whitelist. -/
inductive AOp where
  | add | sub | mult | div | pow | floorDiv | mod
deriving DecidableEq, Repr

/-- Unary operator kinds of the whitelist (`USub`, `UAdd`). -/
inductive UOp where
  | usub | uadd
deriving DecidableEq, Repr

/-- Comparison operator kinds of the whitelist. -/
inductive COp where
  | eq | ne | lt | le | gt | ge
deriving DecidableEq, Repr

/-- Boolean operator kinds of the whitelist (`And`, `Or`). -/
inductive BOp where
  | and | or
deriving DecidableEq, Repr

/-- Literal constants (`ast.Constant`). -/
inductive PyConst where
  | num : ℚ → PyConst
  | bool : Bool → PyConst
  | str : String → PyConst
  | noneVal : PyConst
deriving DecidableEq, Repr

mutual
/-- Python expression nodes, mirroring the `ast` node kinds that appear in
`_ExpressionValidator._allowed_nodes`.  `boolOp` and `compare` are n-ary as
in the Python AST (`a and b and c`, `a < b < c`). -/
inductive PyExpr where
  | const : PyConst → PyExpr
  | name : String → PyExpr
  | binOp : PyExpr → AOp → PyExpr → PyExpr
  | unaryOp : UOp → PyExpr → PyExpr
  | boolOp : BOp → List PyExpr → PyExpr
  | compare : PyExpr → List (COp × PyExpr) → PyExpr
  | ifExp : PyExpr → PyExpr → PyExpr → PyExpr
  | call : PyExpr → List PyExpr → PyExpr
  | attrAccess : PyExpr → String → PyExpr
  | subscript : PyExpr → PySlice → PyExpr
  | listLit : List PyExpr → PyExpr
  | tupleLit : List PyExpr → PyExpr
  | unsupported : String → PyExpr

/-- A subscript is either a plain index (`ast.Index`) or a slice
(`ast.Slice` with optional lower/upper/step). -/
inductive PySlice where
  | index : PyExpr → PySlice
  | slice : Option PyExpr → Option PyExpr → Option PyExpr → PySlice
end

/-- Errors of `payoff_from_expression`; the source raises `ValueError` with
a distinguishing message in each case. -/
inductive ExprError where
  | invalidSyntax : String → ExprError
  | unsupported : ExprError
  | unknownName : String → ExprError
  | functionNotAllowed : String → ExprError
  | onlyMathCalls : ExprError
  | invalidCall : ExprError
deriving DecidableEq, Repr

/-- The `name.startswith("__")` filter of line 69, written out over the
character list (Lean's `String.startsWith` does not reduce in the kernel;
a string starts with `"__"` exactly when its first two characters are
underscores). -/
def dunder (s : String) : Bool :=
  match s.data with
  | c1 :: c2 :: _ => c1 == ('_') && c2 == ('_')
  | _ => false

/-- `_allowed_functions` (lines 68-70): the public names of `math` plus the
helpers `max` and `min`. -/
def allowedFunctions (mathDir : List String) : List String :=
  (mathDir.filter (fun n => !(dunder n))) ++ [("max"), ("min")]

/-- Sequencing of validation checks: first failure wins, as with the
visitor's exceptions. -/
def vseq (x y : Except ExprError Unit) : Except ExprError Unit :=
  match x with
  | .error e => .error e
  | .ok _ => y

mutual
/-- The validator walk (lines 72-94).  Per node: non-whitelisted kinds are
rejected (`visit`); a `Name` must be `price`/`path` or an allowed function
name (`visit_Name`); a `Call` must have an allowed bare name or a
`math.<allowed>` attribute as callee (`visit_Call`), after which, as in the
source, `generic_visit` still descends into the callee and arguments - so
the inner `Name "math"` of an attribute callee is itself rejected by
`visit_Name`.  A bare `Attribute` node is whitelisted and only its receiver
is visited: the attribute name is never checked (this is the
`price.__class__` hole). -/
def validateExpr (mathDir : List String) : PyExpr → Except ExprError Unit
  | .const _ => .ok ()
  | .name id =>
      if id = ("price") ∨ id = ("path") ∨ (allowedFunctions mathDir).contains id
      then .ok () else .error (.unknownName id)
  | .binOp l _ r => vseq (validateExpr mathDir l) (validateExpr mathDir r)
  | .unaryOp _ e => validateExpr mathDir e
  | .boolOp _ es => validateList mathDir es
  | .compare l pairs =>
      vseq (validateExpr mathDir l) (validateCmpList mathDir pairs)
  | .ifExp t b e =>
      vseq (validateExpr mathDir t)
        (vseq (validateExpr mathDir b) (validateExpr mathDir e))
  | .call f args =>
      vseq
        (match f with
         | .attrAccess (.name m) attr =>
             if m = ("math") ∧ (allowedFunctions mathDir).contains attr
             then .ok () else .error .onlyMathCalls
         | .attrAccess _ _ => .error .onlyMathCalls
         | .name id =>
             if (allowedFunctions mathDir).contains id then .ok ()
             else .error (.functionNotAllowed id)
         | _ => .error .invalidCall)
        (vseq (validateExpr mathDir f) (validateList mathDir args))
  | .attrAccess v _ => validateExpr mathDir v
  | .subscript v sl => vseq (validateExpr mathDir v) (validateSlice mathDir sl)
  | .listLit es => validateList mathDir es
  | .tupleLit es => validateList mathDir es
  | .unsupported _ => .error .unsupported

def validateList (mathDir : List String) : List PyExpr → Except ExprError Unit
  | [] => .ok ()
  | e :: rest => vseq (validateExpr mathDir e) (validateList mathDir rest)

def validateCmpList (mathDir : List String) :
    List (COp × PyExpr) → Except ExprError Unit
  | [] => .ok ()
  | (_, e) :: rest => vseq (validateExpr mathDir e) (validateCmpList mathDir rest)

def validateSlice (mathDir : List String) : PySlice → Except ExprError Unit
  | .index e => validateExpr mathDir e
  | .slice lo hi st =>
      vseq (validateOpt mathDir lo)
        (vseq (validateOpt mathDir hi) (validateOpt mathDir st))

def validateOpt (mathDir : List String) : Option PyExpr → Except ExprError Unit
  | none => .ok ()
  | some e => validateExpr mathDir e
end

/-- `payoff_from_expression` up to the construction of the callable
(lines 106-114): the outcome of the host parse `ast.parse(expr, "eval")` is
taken as input (a `SyntaxError` becomes the "Invalid payoff expression"
`ValueError` of line 109); a parsed tree is walked by the validator and, if
accepted, is the compiled payoff (to be run through `evalPayoff`). -/
def payoff_from_expression (parsed : Except String PyExpr)
    (mathDir : List String) : Except ExprError PyExpr :=
  match parsed with
  | .error msg => .error (.invalidSyntax msg)
  | .ok tree =>
      match validateExpr mathDir tree with
      | .error e => .error e
      | .ok _ => .ok tree

/-- Runtime values of the restricted evaluator.  `func` is a registry
callable identified by its registered name; `obj` is an opaque non-numeric
object (the `math` module, `None`, results of `getattr`). -/
inductive PyVal where
  | num : ℚ → PyVal
  | bool : Bool → PyVal
  | str : String → PyVal
  | list : List PyVal → PyVal
  | tuple : List PyVal → PyVal
  | func : String → PyVal
  | obj : String → PyVal

/-- Runtime exceptions a compiled payoff can raise. -/
inductive EvalError where
  | nameError : String → EvalError
  | typeError : EvalError
  | zeroDivision : EvalError
  | valueError : EvalError
  | indexError : EvalError
  | attributeError : EvalError
deriving DecidableEq, Repr

/-- Host-supplied behaviour the evaluator delegates to: the contents of
`dir(math)`, the value of `getattr(math, name)` for registered names, the
result of calling a `math` function, the behaviour of attribute access on
runtime values, and of `x ** y` for non-integral `y`.  The claims hold for
every choice of these. -/
structure EvalCtx where
  mathDir : List String
  mathGlobal : String → PyVal
  mathCall : String → List PyVal → Except EvalError PyVal
  getAttrImpl : PyVal → String → Except EvalError PyVal
  powFrac : ℚ → ℚ → Except EvalError PyVal

/-- Numeric view of a value: Python `bool` is an `int` subclass, so `True`
counts as 1 and `False` as 0 in arithmetic and comparisons. -/
def toNum : PyVal → Option ℚ
  | .num q => some q
  | .bool b => some (if b then 1 else 0)
  | _ => none

/-- Python truthiness of the representable values. -/
def truthy : PyVal → Bool
  | .num q => decide (q ≠ 0)
  | .bool b => b
  | .str s => decide (s ≠ (""))
  | .list l => !l.isEmpty
  | .tuple l => !l.isEmpty
  | .func _ => true
  | .obj _ => true

mutual
/-- Python `==` on the representable values: numbers and bools compare by
value, strings by content, sequences pointwise; mismatched builtin types
compare unequal without raising.  Registry callables and opaque objects are
compared by name (the registry holds one object per name). -/
def pyEq : PyVal → PyVal → Bool
  | .list a, .list b => pyEqList a b
  | .tuple a, .tuple b => pyEqList a b
  | .str a, .str b => a == b
  | .func a, .func b => a == b
  | .obj a, .obj b => a == b
  | a, b =>
      match toNum a, toNum b with
      | some x, some y => x == y
      | _, _ => false

def pyEqList : List PyVal → List PyVal → Bool
  | [], [] => true
  | a :: as2, b :: bs => pyEq a b && pyEqList as2 bs
  | _, _ => false
end

/-- One comparison operator.  Order comparisons are numeric; Python's
lexicographic order on strings and sequences is simplified to the
`TypeError` of the mismatched-type case (no claim touches it). -/
def pyCompare (op : COp) (a b : PyVal) : Except EvalError Bool :=
  match op with
  | .eq => .ok (pyEq a b)
  | .ne => .ok (!(pyEq a b))
  | _ =>
      match toNum a, toNum b with
      | some x, some y =>
          .ok (match op with
               | .lt => decide (x < y)
               | .le => decide (x ≤ y)
               | .gt => decide (y < x)
               | .ge => decide (y ≤ x)
               | _ => false)
      | _, _ => .error .typeError

/-- Python `**` on numbers: integral exponents are exact (with
`0 ** negative` raising `ZeroDivisionError`); non-integral exponents are
delegated to the host model (`2 ** 0.5` is irrational, and a negative base
yields a complex number). -/
def pyPow (powFrac : ℚ → ℚ → Except EvalError PyVal) (x y : ℚ) :
    Except EvalError PyVal :=
  if y.den = 1 then
    if x = 0 ∧ y.num < 0 then .error .zeroDivision
    else .ok (.num (x ^ y.num))
  else powFrac x y

/-- Binary arithmetic on numbers.  Division, floor division and modulo by
zero raise `ZeroDivisionError` exactly as in Python; `%` follows the sign
of the divisor (`x - y * floor(x / y)`).  Python's sequence concatenation
and repetition via `+`/`*` are simplified to the `TypeError` of the
non-numeric case (no claim touches them). -/
def pyBinOp (powFrac : ℚ → ℚ → Except EvalError PyVal) (op : AOp)
    (a b : PyVal) : Except EvalError PyVal :=
  match toNum a, toNum b with
  | some x, some y =>
      match op with
      | .add => .ok (.num (x + y))
      | .sub => .ok (.num (x - y))
      | .mult => .ok (.num (x * y))
      | .div => if y = 0 then .error .zeroDivision else .ok (.num (x / y))
      | .floorDiv =>
          if y = 0 then .error .zeroDivision
          else .ok (.num ((⌊x / y⌋ : ℤ) : ℚ))
      | .mod =>
          if y = 0 then .error .zeroDivision
          else .ok (.num (x - y * ((⌊x / y⌋ : ℤ) : ℚ)))
      | .pow => pyPow powFrac x y
  | _, _ => .error .typeError

/-- Unary `+`/`-` on numbers. -/
def pyUnary (op : UOp) (a : PyVal) : Except EvalError PyVal :=
  match toNum a with
  | some x => .ok (.num (match op with | .usub => -x | .uadd => x))
  | none => .error .typeError

/-- All-numeric view of an argument list. -/
def asNums : List PyVal → Option (List ℚ)
  | [] => some []
  | v :: rest =>
      match toNum v, asNums rest with
      | some x, some xs => some (x :: xs)
      | _, _ => none

def numFold (isMax : Bool) : List ℚ → ℚ → ℚ
  | [], acc => acc
  | x :: rest, acc => numFold isMax rest (if isMax then max acc x else min acc x)

/-- The builtins `max`/`min` in the forms a payoff can use: two or more
numeric arguments, or one list argument (empty list raising `ValueError`,
as in Python).  Other shapes raise `TypeError` (non-numeric comparisons are
simplified as in `pyCompare`). -/
def builtinMaxMin (isMax : Bool) (args : List PyVal) :
    Except EvalError PyVal :=
  match args with
  | [] => .error .typeError
  | [.list l] =>
      match asNums l with
      | some [] => .error .valueError
      | some (x :: xs) => .ok (.num (numFold isMax xs x))
      | none => .error .typeError
  | [_] => .error .typeError
  | _ =>
      match asNums args with
      | some (x :: xs) => .ok (.num (numFold isMax xs x))
      | _ => .error .typeError

/-- Name resolution of the compiled payoff (lines 116-121): the locals
`price` and `path`, then the globals - the registered helpers, the filtered
`math` names (bound to `getattr(math, name)`), and `math` itself.  The key
`__builtins__` (bound to the empty dict) is unreachable for validated
expressions and omitted.  Anything else raises `NameError`. -/
def lookupName (ctx : EvalCtx) (price : ℚ) (path : List ℚ) (id : String) :
    Except EvalError PyVal :=
  if id = ("price") then .ok (.num price)
  else if id = ("path") then .ok (.list (path.map (fun x => .num x)))
  else if id = ("max") ∨ id = ("min") then .ok (.func id)
  else if (ctx.mathDir.filter (fun n => !(dunder n))).contains id then
    .ok (ctx.mathGlobal id)
  else if id = ("math") then .ok (.obj ("math"))
  else .error (.nameError id)

/-- Calling a value: only registry callables are callable; `max`/`min` are
the builtins, other registered names go to the host `math` model.  Calling
a number, sequence or opaque object raises `TypeError`. -/
def applyCallable (ctx : EvalCtx) (v : PyVal) (args : List PyVal) :
    Except EvalError PyVal :=
  match v with
  | .func f =>
      if f = ("max") then builtinMaxMin true args
      else if f = ("min") then builtinMaxMin false args
      else ctx.mathCall f args
  | _ => .error .typeError

/-- Indexing a sequence of length `len`: integral indices in
`[-len, len)` resolve (negative ones from the end), others raise
`IndexError`.  Python only accepts `int` indices; an integral float index
(`path[2.0]` raises `TypeError` there) is conflated with the `int` case
here - no claim touches it. -/
def pyIndex (l : List PyVal) (i : ℚ) : Except EvalError PyVal :=
  if i.den = 1 then
    if 0 ≤ i.num ∧ i.num < (l.length : ℤ) then
      .ok (l.getD i.num.toNat (.obj ("")))
    else if -(l.length : ℤ) ≤ i.num ∧ i.num < 0 then
      .ok (l.getD (i.num + (l.length : ℤ)).toNat (.obj ("")))
    else .error .indexError
  else .error .typeError

/-- Collect the elements of a slice walk: from `i`, stepping by `st`, while
on the correct side of `stop`.  Fuel bounds the walk (at most `len` items
are ever produced because the bounds are pre-clamped). -/
def sliceCollect (l : List PyVal) : ℕ → ℤ → ℤ → ℤ → List PyVal
  | 0, _, _, _ => []
  | fuel + 1, i, stop, st =>
      if (0 < st ∧ i < stop) ∨ (st < 0 ∧ stop < i) then
        l.getD i.toNat (.obj ("")) :: sliceCollect l fuel (i + st) stop st
      else []

/-- CPython slice resolution (`slice.indices`): zero step raises
`ValueError`; bounds are normalised from the end when negative and clamped
to `[0, len]` (positive step) or `[-1, len-1]` (negative step). -/
def pySliceElems (l : List PyVal) (lo hi : Option ℤ) (st : ℤ) :
    Except EvalError (List PyVal) :=
  if st = 0 then .error .valueError
  else
    let len : ℤ := l.length
    let norm : ℤ → ℤ := fun i => if i < 0 then i + len else i
    if 0 < st then
      let start := min (max (norm (lo.getD 0)) 0) len
      let stop := min (max (norm (hi.getD len)) 0) len
      .ok (sliceCollect l l.length start stop st)
    else
      let start := min (max (norm (lo.getD (len - 1))) (-1)) (len - 1)
      let stop := min (max (norm (hi.getD (-1))) (-1)) (len - 1)
      .ok (sliceCollect l l.length start stop st)

/-- A slice bound: `None` or an integral number (Python raises `TypeError`
for non-integer bounds). -/
def sliceBoundToInt : Option PyVal → Except EvalError (Option ℤ)
  | none => .ok none
  | some v =>
      match toNum v with
      | some q => if q.den = 1 then .ok (some q.num) else .error .typeError
      | none => .error .typeError

mutual
/-- The compiled payoff body: evaluation of a validated tree under the
restricted environment, i.e. the `eval(compiled, allowed_globals, locals)`
of line 121.  Operand order and short-circuiting follow Python. -/
def evalExpr (ctx : EvalCtx) (price : ℚ) (path : List ℚ) :
    PyExpr → Except EvalError PyVal
  | .const c =>
      .ok (match c with
           | .num q => .num q
           | .bool b => .bool b
           | .str s => .str s
           | .noneVal => .obj ("None"))
  | .name id => lookupName ctx price path id
  | .binOp l op r => do
      let a ← evalExpr ctx price path l
      let b ← evalExpr ctx price path r
      pyBinOp ctx.powFrac op a b
  | .unaryOp op e => do
      let a ← evalExpr ctx price path e
      pyUnary op a
  | .boolOp op es => evalBoolChain ctx price path op es
  | .compare l pairs => do
      let a ← evalExpr ctx price path l
      evalCmpChain ctx price path a pairs
  | .ifExp t b e => do
      let c ← evalExpr ctx price path t
      if truthy c then evalExpr ctx price path b else evalExpr ctx price path e
  | .call f args => do
      let fv ← evalExpr ctx price path f
      let avs ← evalArgs ctx price path args
      applyCallable ctx fv avs
  | .attrAccess v attr => do
      let a ← evalExpr ctx price path v
      ctx.getAttrImpl a attr
  | .subscript v sl => do
      let a ← evalExpr ctx price path v
      evalSubscript ctx price path a sl
  | .listLit es => do
      let vs ← evalArgs ctx price path es
      pure (.list vs)
  | .tupleLit es => do
      let vs ← evalArgs ctx price path es
      pure (.tuple vs)
  | .unsupported _ => .error .typeError

def evalArgs (ctx : EvalCtx) (price : ℚ) (path : List ℚ) :
    List PyExpr → Except EvalError (List PyVal)
  | [] => .ok []
  | e :: rest => do
      let v ← evalExpr ctx price path e
      let vs ← evalArgs ctx price path rest
      pure (v :: vs)

def evalBoolChain (ctx : EvalCtx) (price : ℚ) (path : List ℚ) (op : BOp) :
    List PyExpr → Except EvalError PyVal
  | [] => .ok (.bool (match op with | .and => true | .or => false))
  | [e] => evalExpr ctx price path e
  | e :: rest => do
      let v ← evalExpr ctx price path e
      match op with
      | .and =>
          if truthy v then evalBoolChain ctx price path op rest else pure v
      | .or =>
          if truthy v then pure v else evalBoolChain ctx price path op rest

def evalCmpChain (ctx : EvalCtx) (price : ℚ) (path : List ℚ) (left : PyVal) :
    List (COp × PyExpr) → Except EvalError PyVal
  | [] => .ok (.bool true)
  | (op, e) :: rest => do
      let right ← evalExpr ctx price path e
      let b ← pyCompare op left right
      if b then evalCmpChain ctx price path right rest else .ok (.bool false)

def evalSubscript (ctx : EvalCtx) (price : ℚ) (path : List ℚ) (v : PyVal) :
    PySlice → Except EvalError PyVal
  | .index e => do
      let i ← evalExpr ctx price path e
      match v, toNum i with
      | .list l, some q => pyIndex l q
      | .tuple l, some q => pyIndex l q
      | _, _ => .error .typeError
  | .slice lo hi st => do
      let lo2 ← evalBound ctx price path lo
      let hi2 ← evalBound ctx price path hi
      let st2 ← evalBound ctx price path st
      let lo3 ← sliceBoundToInt lo2
      let hi3 ← sliceBoundToInt hi2
      let st3 ← sliceBoundToInt st2
      match v with
      | .list l => do
          let elems ← pySliceElems l lo3 hi3 (st3.getD 1)
          pure (.list elems)
      | .tuple l => do
          let elems ← pySliceElems l lo3 hi3 (st3.getD 1)
          pure (.tuple elems)
      | _ => .error .typeError

def evalBound (ctx : EvalCtx) (price : ℚ) (path : List ℚ) :
    Option PyExpr → Except EvalError (Option PyVal)
  | none => pure none
  | some e => do
      let v ← evalExpr ctx price path e
      pure (some v)
end

/-- The `float(...)` wrapper of line 121 on the representable values:
numbers and bools convert, strings raise `ValueError` in the cases a payoff
can hit (numeric strings are simplified away - no claim touches them),
everything else raises `TypeError`. -/
def toFloat : PyVal → Except EvalError ℚ
  | .num q => .ok q
  | .bool b => .ok (if b then 1 else 0)
  | .str _ => .error .valueError
  | _ => .error .typeError

/-- The compiled payoff callable (lines 120-121): evaluate and convert. -/
def evalPayoff (ctx : EvalCtx) (e : PyExpr) (price : ℚ) (path : List ℚ) :
    Except EvalError ℚ :=
  match evalExpr ctx price path e with
  | .error err => .error err
  | .ok v => toFloat v

/-- Syntax tree of `__import__("os")` under `ast.parse(-, "eval")`:
`Call(func=Name("__import__"), args=[Constant("os")])`. -/
def importCallExpr : PyExpr :=
  .call (.name ("__import__")) [.const (.str ("os"))]

/-- Syntax tree of `price.__class__`:
`Attribute(value=Name("price"), attr="__class__")`. -/
def priceClassExpr : PyExpr :=
  .attrAccess (.name ("price")) ("__class__")

/-- Syntax tree of `max(price - 100, 0)`. -/
def maxCallExpr : PyExpr :=
  .call (.name ("max"))
    [.binOp (.name ("price")) .sub (.const (.num 100)), .const (.num 0)]

/-- Syntax tree of `1 / price`. -/
def divPriceExpr : PyExpr :=
  .binOp (.const (.num 1)) .div (.name ("price"))

/-- A concrete context for witnesses: a small stand-in for `dir(math)` (the
theorems quantify over the directory wherever its contents matter) with
registry functions that are never name errors. -/
def testCtx : EvalCtx where
  mathDir := [("exp"), ("log"), ("sqrt"), ("pi")]
  mathGlobal := fun n => .func n
  mathCall := fun _ _ => .error .valueError
  getAttrImpl := fun _ _ => .error .attributeError
  powFrac := fun _ _ => .error .valueError

/-- Whether a result is a Python `NameError` - the failure mode an ambient
name lookup would produce, which the sandbox is meant to exclude. -/
def isNameErrB {α : Type} : Except EvalError α → Bool
  | .error (.nameError _) => true
  | _ => false

/-! ## Helper lemmas -/

theorem getD_range_map {α : Type} (f : ℕ → α) {i n : ℕ} (d : α) (h : i < n) :
    ((List.range n).map f).getD i d = f i := by
  simp [List.getD_eq_getElem?_getD, List.getElem?_map, List.getElem?_range, h]

theorem getLastD_range_map {α : Type} (f : ℕ → α) (n : ℕ) (d : α) :
    ((List.range (n + 1)).map f).getLastD d = f n := by
  rw [List.range_succ, List.map_append]
  simp

theorem pydiv_eq_ok {a b c : ℚ} : pydiv a b = .ok c ↔ b ≠ 0 ∧ c = a / b := by
  unfold pydiv
  split
  · simp_all
  · rename_i h
    simp [h, eq_comm]

theorem validate_parameters_ok_iff
    {spot strike maturity rate volatility : ℚ} {steps : ℤ} :
    _validate_parameters spot strike maturity rate volatility steps = .ok () ↔
      0 < spot ∧ 0 < strike ∧ 0 < maturity ∧ 0 < steps ∧ 0 ≤ volatility := by
  unfold _validate_parameters
  split_ifs with h1 h2 h3 h4 h5
  · simp only [reduceCtorEq, false_iff]
    rintro ⟨c, -⟩; exact absurd h1 (not_le.mpr c)
  · simp only [reduceCtorEq, false_iff]
    rintro ⟨-, c, -⟩; exact absurd h2 (not_le.mpr c)
  · simp only [reduceCtorEq, false_iff]
    rintro ⟨-, -, c, -⟩; exact absurd h3 (not_le.mpr c)
  · simp only [reduceCtorEq, false_iff]
    rintro ⟨-, -, -, c, -⟩; exact absurd h4 (not_le.mpr c)
  · simp only [reduceCtorEq, false_iff]
    rintro ⟨-, -, -, -, c⟩; exact absurd h5 (not_lt.mpr c)
  · simp only [true_iff]
    exact ⟨not_le.mp h1, not_le.mp h2, not_le.mp h3, not_le.mp h4, not_lt.mp h5⟩

theorem validate_inputs_ok_iff
    {spot maturity rate volatility : ℚ} {steps paths : ℤ} :
    _validate_inputs spot maturity rate volatility steps paths = .ok () ↔
      0 < spot ∧ 0 < maturity ∧ 0 < steps ∧ 0 < paths ∧ 0 ≤ volatility := by
  have hs : ((steps : ℚ) ≤ 0) ↔ steps ≤ 0 := Int.cast_nonpos
  have hp : ((paths : ℚ) ≤ 0) ↔ paths ≤ 0 := Int.cast_nonpos
  unfold _validate_inputs _validate_positive
  split_ifs with h1 h2 h3 h4 h5
  · simp only [reduceCtorEq, false_iff]
    rintro ⟨c, -⟩; exact absurd h1 (not_le.mpr c)
  · simp only [reduceCtorEq, false_iff]
    rintro ⟨-, c, -⟩; exact absurd h2 (not_le.mpr c)
  · simp only [reduceCtorEq, false_iff]
    rintro ⟨-, -, c, -⟩; exact absurd (hs.mp h3) (not_le.mpr c)
  · simp only [reduceCtorEq, false_iff]
    rintro ⟨-, -, -, c, -⟩; exact absurd (hp.mp h4) (not_le.mpr c)
  · simp only [reduceCtorEq, false_iff]
    rintro ⟨-, -, -, -, c⟩; exact absurd h5 (not_lt.mpr c)
  · simp only [true_iff]
    refine ⟨not_le.mp h1, not_le.mp h2, ?_, ?_, not_lt.mp h5⟩
    · have h3b : ¬ steps ≤ 0 := fun c => h3 (hs.mpr c)
      omega
    · have h4b : ¬ paths ≤ 0 := fun c => h4 (hp.mpr c)
      omega

/-- Anatomy of a successful run of `binomial_option_price`: validation must
have passed, both guarded divisors were non-zero, the arbitrage check held,
and the returned value is `binomial_result` at the derived constants. -/
theorem binomial_ok_inv {fexp fsqrt : ℚ → ℚ}
    {spot strike maturity rate volatility dividend : ℚ} {steps : ℤ}
    {option_type : OptionType} {american : Bool} {r : BinomialTreeResult}
    (h : binomial_option_price fexp fsqrt spot strike maturity rate volatility
      steps option_type american dividend = .ok r) :
    (0 < spot ∧ 0 < strike ∧ 0 < maturity ∧ 0 < steps ∧ 0 ≤ volatility) ∧
    crr_up fexp fsqrt maturity volatility steps.toNat ≠ 0 ∧
    crr_up fexp fsqrt maturity volatility steps.toNat -
      crr_down fexp fsqrt maturity volatility steps.toNat ≠ 0 ∧
    (0 ≤ crr_probability fexp fsqrt maturity rate dividend volatility steps.toNat ∧
      crr_probability fexp fsqrt maturity rate dividend volatility steps.toNat ≤ 1) ∧
    r = binomial_result (crr_discount fexp maturity rate steps.toNat)
          (crr_probability fexp fsqrt maturity rate dividend volatility steps.toNat)
          strike option_type american spot
          (crr_up fexp fsqrt maturity volatility steps.toNat)
          (crr_down fexp fsqrt maturity volatility steps.toNat)
          steps.toNat := by
  unfold binomial_option_price at h
  split at h
  · exact absurd h (by simp)
  · rename_i hv
    split at h
    · exact absurd h (by simp)
    · rename_i down hdown
      obtain ⟨hup, hdownval⟩ := pydiv_eq_ok.mp hdown
      split at h
      · exact absurd h (by simp)
      · rename_i probability hprob
        obtain ⟨hud, hprobval⟩ := pydiv_eq_ok.mp hprob
        rw [hdownval] at hud hprobval
        split at h
        · rename_i hrange
          refine ⟨validate_parameters_ok_iff.mp hv, hup, hud, ?_, ?_⟩
          · have := hprobval ▸ hrange
            exact this
          · obtain ⟨rfl⟩ := h
            rw [hdownval, hprobval]
            rfl
        · exact absurd h (by simp)

theorem option_values_list_getD {d p k : ℚ} {ot : OptionType} {am : Bool}
    {spot up down : ℚ} {N : ℕ} {term : List ℚ} {s : ℕ} (hs : s ≤ N) :
    (option_values_list d p k ot am spot up down N term).getD s [] =
      option_level d p k ot am spot up down N term (N - s) := by
  unfold option_values_list
  exact getD_range_map _ _ (by omega)

theorem option_level_step {d p k : ℚ} {ot : OptionType} {am : Bool}
    {spot up down : ℚ} {N : ℕ} {term : List ℚ} {s : ℕ} (hs : s < N) :
    option_level d p k ot am spot up down N term (N - s) =
      back_step d p k ot am (asset_level spot up down s)
        (option_level d p k ot am spot up down N term (N - (s + 1))) s := by
  have hk : N - s = (N - (s + 1)) + 1 := by omega
  rw [hk]
  have h2 : N - ((N - (s + 1)) + 1) = s := by omega
  rw [option_level, h2]

theorem back_step_getD {d p k : ℚ} {ot : OptionType} {am : Bool}
    {lev next : List ℚ} {s j : ℕ} (hj : j ≤ s) :
    (back_step d p k ot am lev next s).getD j 0 =
      (let cont := d * (p * next.getD (j + 1) 0 + (1 - p) * next.getD j 0)
       if am then max cont (terminal_payoff ot k (lev.getD j 0)) else cont) := by
  unfold back_step
  exact getD_range_map _ _ (by omega)

theorem asset_level_length (spot up down : ℚ) (s : ℕ) :
    (asset_level spot up down s).length = s + 1 := by
  simp [asset_level]

theorem asset_level_getD {spot up down : ℚ} {s j : ℕ} (hj : j ≤ s) :
    (asset_level spot up down s).getD j 0 = spot * up ^ j * down ^ (s - j) := by
  unfold asset_level
  exact getD_range_map _ _ (by omega)

theorem asset_prices_list_getD {spot up down : ℚ} {N s : ℕ} (hs : s ≤ N) :
    (asset_prices_list spot up down N).getD s [] = asset_level spot up down s := by
  unfold asset_prices_list
  exact getD_range_map _ _ (by omega)

theorem binomial_result_asset_prices (d p k : ℚ) (ot : OptionType) (am : Bool)
    (spot up down : ℚ) (N : ℕ) :
    (binomial_result d p k ot am spot up down N).asset_prices =
      asset_prices_list spot up down N := rfl

theorem binomial_result_option_values (d p k : ℚ) (ot : OptionType) (am : Bool)
    (spot up down : ℚ) (N : ℕ) :
    (binomial_result d p k ot am spot up down N).option_values =
      option_values_list d p k ot am spot up down N
        ((asset_level spot up down N).map (fun price => terminal_payoff ot k price)) := by
  simp only [binomial_result, asset_prices_list, getLastD_range_map]

theorem binomial_result_price (d p k : ℚ) (ot : OptionType) (am : Bool)
    (spot up down : ℚ) (N : ℕ) :
    (binomial_result d p k ot am spot up down N).price =
      ((binomial_result d p k ot am spot up down N).option_values.getD 0 []).getD 0 0 := rfl

/-- Anatomy of a successful run of `monte_carlo_option_price`: validation
must have passed and the returned value is `monte_carlo_result`. -/
theorem monte_carlo_ok_inv {fexp fsqrt : ℚ → ℚ} {normals : ℕ → ℚ}
    {spot maturity rate volatility : ℚ} {steps paths : ℤ}
    {payoff : ℚ → List ℚ → ℚ} {r : MonteCarloResult}
    (h : monte_carlo_option_price fexp fsqrt normals spot maturity rate
      volatility steps paths payoff = .ok r) :
    (0 < spot ∧ 0 < maturity ∧ 0 < steps ∧ 0 < paths ∧ 0 ≤ volatility) ∧
    r = monte_carlo_result fexp fsqrt normals spot maturity rate volatility
          steps.toNat paths.toNat payoff := by
  unfold monte_carlo_option_price at h
  split at h
  · exact absurd h (by simp)
  · rename_i hv
    exact ⟨validate_inputs_ok_iff.mp hv, (Except.ok.inj h).symm⟩

theorem run_steps_snd_length (fexp : ℚ → ℚ) (drift diffusion : ℚ)
    (normals : ℕ → ℚ) : ∀ (price : ℚ) (k n : ℕ),
    (run_steps fexp drift diffusion normals price k n).2.length = n := by
  intro price k n
  induction n generalizing price k with
  | zero => rfl
  | succ m ih => simp [run_steps, ih]

theorem monte_carlo_result_payoffs_length (fexp fsqrt : ℚ → ℚ)
    (normals : ℕ → ℚ) (spot maturity rate volatility : ℚ) (N M : ℕ)
    (payoff : ℚ → List ℚ → ℚ) :
    (monte_carlo_result fexp fsqrt normals spot maturity rate volatility
      N M payoff).payoffs.length = M := by
  simp [monte_carlo_result]

theorem monte_carlo_result_paths_length (fexp fsqrt : ℚ → ℚ)
    (normals : ℕ → ℚ) (spot maturity rate volatility : ℚ) (N M : ℕ)
    (payoff : ℚ → List ℚ → ℚ) :
    (monte_carlo_result fexp fsqrt normals spot maturity rate volatility
      N M payoff).paths.length = M := by
  simp [monte_carlo_result]

/-! ## Concrete evaluations used by witnesses

Rational arithmetic on literals does not reduce definitionally (the
normalisation inside `Rat.mul` is well-founded recursion), so concrete runs
of the pricers are evaluated once and for all by `simp`/`norm_num` here. -/

theorem binomial_concrete_eval :
    binomial_option_price (fun _ => 2) (fun _ => 1) 1 1 1 0 1 1 .call false 0 =
      .ok ⟨2, [[1], [1/2, 2]], [[2], [0, 1]]⟩ := by
  have hv : _validate_parameters 1 1 1 0 1 (1 : ℤ) = .ok () := by
    unfold _validate_parameters
    norm_num
  unfold binomial_option_price
  rw [hv]
  norm_num [pydiv, crr_up, crr_down, crr_growth, crr_probability, crr_discount,
    crr_dt, binomial_result, asset_prices_list, asset_level, option_values_list,
    option_level, back_step, terminal_payoff, List.range_succ, max_def]

theorem monte_carlo_concrete_eval :
    monte_carlo_option_price (fun _ => 2) (fun _ => 1) (fun _ => 0)
      1 1 0 1 1 1 (fun p _ => p) = .ok ⟨4, [2], [[1, 2]]⟩ := by
  have hv : _validate_inputs 1 1 0 1 (1 : ℤ) 1 = .ok () := by
    unfold _validate_inputs _validate_positive
    norm_num
  unfold monte_carlo_option_price
  rw [hv]
  norm_num [monte_carlo_result, run_steps, List.range_succ]

/-! ## Claims about the binomial pricer -/

/-- Claim C3: in `binomial_option_price`, for every step `s < steps` and
node `j ≤ s`, the European node value is
`discount * (p * V[s+1][j+1] + (1-p) * V[s+1][j])`; when `american` the node
value is the max of that continuation and the intrinsic value at
`asset_prices[s][j]`; and the returned price is `option_values[0][0]`. -/
theorem claim3_backward_induction (fexp fsqrt : ℚ → ℚ)
    (spot strike maturity rate volatility dividend : ℚ) (steps : ℤ)
    (option_type : OptionType) (american : Bool) (r : BinomialTreeResult)
    (h : binomial_option_price fexp fsqrt spot strike maturity rate volatility
      steps option_type american dividend = .ok r)
    (s j : ℕ) (hs : s < steps.toNat) (hj : j ≤ s) :
    (let probability :=
       crr_probability fexp fsqrt maturity rate dividend volatility steps.toNat
     let discount := crr_discount fexp maturity rate steps.toNat
     let V : ℕ → ℕ → ℚ := fun i n => (r.option_values.getD i []).getD n 0
     let continuation := discount *
       (probability * V (s + 1) (j + 1) + (1 - probability) * V (s + 1) j)
     V s j =
       if american then
         max continuation
           (terminal_payoff option_type strike ((r.asset_prices.getD s []).getD j 0))
       else continuation) ∧
    r.price = (r.option_values.getD 0 []).getD 0 0 := by
  obtain ⟨-, -, -, -, rfl⟩ := binomial_ok_inv h
  refine ⟨?_, binomial_result_price _ _ _ _ _ _ _ _ _⟩
  dsimp only
  rw [binomial_result_asset_prices, binomial_result_option_values,
    asset_prices_list_getD (le_of_lt hs),
    option_values_list_getD (le_of_lt hs),
    option_values_list_getD (Nat.succ_le_of_lt hs),
    option_level_step hs,
    back_step_getD hj]

/-- Claim C4: given parameters that pass validation and non-degenerate
`up`/`down` factors, `binomial_option_price` fails with the arbitrage error
exactly when the risk-neutral probability `(growth - down)/(up - down)`
falls outside `[0, 1]`; it is never clamped into range. -/
theorem claim4_arbitrage_iff (fexp fsqrt : ℚ → ℚ)
    (spot strike maturity rate volatility dividend : ℚ) (steps : ℤ)
    (option_type : OptionType) (american : Bool)
    (hv : _validate_parameters spot strike maturity rate volatility steps = .ok ())
    (hup : crr_up fexp fsqrt maturity volatility steps.toNat ≠ 0)
    (hud : crr_up fexp fsqrt maturity volatility steps.toNat -
      crr_down fexp fsqrt maturity volatility steps.toNat ≠ 0) :
    (binomial_option_price fexp fsqrt spot strike maturity rate volatility
        steps option_type american dividend = .error .arbitrage ↔
      ¬ (0 ≤ crr_probability fexp fsqrt maturity rate dividend volatility steps.toNat ∧
          crr_probability fexp fsqrt maturity rate dividend volatility steps.toNat ≤ 1)) := by
  have h1 : pydiv 1 (crr_up fexp fsqrt maturity volatility steps.toNat) =
      .ok (crr_down fexp fsqrt maturity volatility steps.toNat) :=
    pydiv_eq_ok.mpr ⟨hup, rfl⟩
  have h2 : pydiv
      (crr_growth fexp maturity rate dividend steps.toNat -
        crr_down fexp fsqrt maturity volatility steps.toNat)
      (crr_up fexp fsqrt maturity volatility steps.toNat -
        crr_down fexp fsqrt maturity volatility steps.toNat) =
      .ok (crr_probability fexp fsqrt maturity rate dividend volatility steps.toNat) :=
    pydiv_eq_ok.mpr ⟨hud, rfl⟩
  unfold binomial_option_price
  simp only [hv, h1, h2]
  split_ifs with hc
  · simp [hc]
  · simp [hc]

/-- Claim C5: for all parameters accepted by validation, the returned
lattice has `steps+1` levels, level `s` has `s+1` entries, level `0` is
`[spot]`, and node `j` of level `s` is `spot * up^j * down^(s-j)`. -/
theorem claim5_asset_lattice (fexp fsqrt : ℚ → ℚ)
    (spot strike maturity rate volatility dividend : ℚ) (steps : ℤ)
    (option_type : OptionType) (american : Bool) (r : BinomialTreeResult)
    (h : binomial_option_price fexp fsqrt spot strike maturity rate volatility
      steps option_type american dividend = .ok r)
    (s j : ℕ) (hs : s ≤ steps.toNat) (hj : j ≤ s) :
    r.asset_prices.length = steps.toNat + 1 ∧
    (r.asset_prices.getD s []).length = s + 1 ∧
    r.asset_prices.getD 0 [] = [spot] ∧
    (r.asset_prices.getD s []).getD j 0 =
      spot * crr_up fexp fsqrt maturity volatility steps.toNat ^ j *
        crr_down fexp fsqrt maturity volatility steps.toNat ^ (s - j) := by
  obtain ⟨-, -, -, -, rfl⟩ := binomial_ok_inv h
  rw [binomial_result_asset_prices]
  refine ⟨by simp [asset_prices_list], ?_, ?_, ?_⟩
  · rw [asset_prices_list_getD hs, asset_level_length]
  · rw [asset_prices_list_getD (Nat.zero_le _)]
    simp [asset_level, List.range_succ]
  · rw [asset_prices_list_getD hs, asset_level_getD hj]

/-- Claim C10: volatility = 0 passes validation (only negative volatility
is rejected), and then `up = down = 1`, so the probability computation
divides by zero before the arbitrage check: the function fails with the
(unhandled, in Python terms) `ZeroDivisionError`, not with a validation or
arbitrage error. -/
theorem claim10_zero_volatility_division (fexp fsqrt : ℚ → ℚ)
    (spot strike maturity rate dividend : ℚ) (steps : ℤ)
    (option_type : OptionType) (american : Bool)
    (hs : 0 < spot) (hk : 0 < strike) (hm : 0 < maturity) (hn : 0 < steps)
    (hexp : fexp 0 = 1) :
    binomial_option_price fexp fsqrt spot strike maturity rate 0 steps
      option_type american dividend = .error .zeroDivision := by
  have hv : _validate_parameters spot strike maturity rate 0 steps = .ok () :=
    validate_parameters_ok_iff.mpr ⟨hs, hk, hm, hn, le_refl 0⟩
  have hup : crr_up fexp fsqrt maturity 0 steps.toNat = 1 := by
    simp [crr_up, hexp]
  unfold binomial_option_price
  simp [hv, hup, pydiv]

/-! ## Claims about the Monte Carlo engine -/

/-- Claim C6: for all parameters accepted by validation, the returned price
is `exp(-rate * maturity)` times the mean of the returned per-path payoffs
(sum over a non-empty list, divided by its length); no variance reduction
is applied. -/
theorem claim6_discounted_mean (fexp fsqrt : ℚ → ℚ) (normals : ℕ → ℚ)
    (spot maturity rate volatility : ℚ) (steps paths : ℤ)
    (payoff : ℚ → List ℚ → ℚ) (r : MonteCarloResult)
    (h : monte_carlo_option_price fexp fsqrt normals spot maturity rate
      volatility steps paths payoff = .ok r) :
    r.payoffs ≠ [] ∧
    r.price = fexp (-(rate * maturity)) * r.payoffs.sum / (r.payoffs.length : ℚ) := by
  obtain ⟨⟨-, -, -, hpaths, -⟩, rfl⟩ := monte_carlo_ok_inv h
  constructor
  · have hlen := monte_carlo_result_payoffs_length fexp fsqrt normals spot
      maturity rate volatility steps.toNat paths.toNat payoff
    intro hnil
    rw [hnil] at hlen
    simp at hlen
    omega
  · rfl

/-- Claim C7: with `paths = 1`, `steps = 1`, `volatility = 0` and
`rate = 0`, the Monte Carlo pricer returns exactly one payoff and one
simulated path `[spot, spot]`, regardless of the normal draws. -/
theorem claim7_single_deterministic_path (fexp fsqrt : ℚ → ℚ)
    (normals : ℕ → ℚ) (spot maturity : ℚ) (payoff : ℚ → List ℚ → ℚ)
    (hs : 0 < spot) (hm : 0 < maturity) (hexp : fexp 0 = 1) :
    monte_carlo_option_price fexp fsqrt normals spot maturity 0 0 1 1 payoff =
      .ok ⟨payoff spot [spot, spot], [payoff spot [spot, spot]], [[spot, spot]]⟩ := by
  have hv : _validate_inputs spot maturity 0 0 1 1 = .ok () :=
    validate_inputs_ok_iff.mpr ⟨hs, hm, by norm_num, by norm_num, le_refl 0⟩
  unfold monte_carlo_option_price
  simp only [hv]
  unfold monte_carlo_result
  norm_num [run_steps, hexp]

/-- Claim C8: for all parameters accepted by validation, every simulated
path has `steps + 1` points starting at `spot`, and the numbers of paths
and payoffs both equal the requested path count. -/
theorem claim8_path_shape (fexp fsqrt : ℚ → ℚ) (normals : ℕ → ℚ)
    (spot maturity rate volatility : ℚ) (steps paths : ℤ)
    (payoff : ℚ → List ℚ → ℚ) (r : MonteCarloResult)
    (h : monte_carlo_option_price fexp fsqrt normals spot maturity rate
      volatility steps paths payoff = .ok r)
    (p : List ℚ) (hp : p ∈ r.paths) :
    (r.paths.length : ℤ) = paths ∧ (r.payoffs.length : ℤ) = paths ∧
    p.length = steps.toNat + 1 ∧ p.head? = some spot := by
  obtain ⟨⟨-, -, -, hpaths, -⟩, rfl⟩ := monte_carlo_ok_inv h
  have hM : ((paths.toNat : ℤ)) = paths := Int.toNat_of_nonneg (le_of_lt hpaths)
  refine ⟨?_, ?_, ?_, ?_⟩
  · rw [monte_carlo_result_paths_length]; exact hM
  · rw [monte_carlo_result_payoffs_length]; exact hM
  · simp only [monte_carlo_result, List.map_map, List.mem_map,
      List.mem_range, Function.comp] at hp
    obtain ⟨i, -, rfl⟩ := hp
    simp [run_steps_snd_length]
  · simp only [monte_carlo_result, List.map_map, List.mem_map,
      List.mem_range, Function.comp] at hp
    obtain ⟨i, -, rfl⟩ := hp
    rfl

/-! ## Claims about parameter validation -/

/-- Claim C9 counterexample: `rate = 0` is non-positive, yet with otherwise
valid parameters both pricers succeed instead of failing with a validation
error (the validators never examine `rate`). -/
theorem claim9_counterexample :
    (binomial_option_price (fun _ => 2) (fun _ => 1)
      1 1 1 0 1 1 .call false 0).isOk = true ∧
    (monte_carlo_option_price (fun _ => 2) (fun _ => 1) (fun _ => 0)
      1 1 0 1 1 1 (fun p _ => p)).isOk = true := by
  rw [binomial_concrete_eval, monte_carlo_concrete_eval]
  exact ⟨rfl, rfl⟩

/-- Claim C9 amended: the shared validators never examine `rate`; they
accept any rate (including non-positive ones) and reject exactly the
non-positive spot/strike/maturity/step/path parameters and negative
volatility. -/
theorem claim9_rate_unchecked (spot strike maturity volatility : ℚ)
    (steps paths : ℤ) (rate rate2 : ℚ) :
    (_validate_parameters spot strike maturity rate volatility steps =
      _validate_parameters spot strike maturity rate2 volatility steps) ∧
    (_validate_inputs spot maturity rate volatility steps paths =
      _validate_inputs spot maturity rate2 volatility steps paths) ∧
    (_validate_parameters spot strike maturity rate volatility steps = .ok () ↔
      0 < spot ∧ 0 < strike ∧ 0 < maturity ∧ 0 < steps ∧ 0 ≤ volatility) ∧
    (_validate_inputs spot maturity rate volatility steps paths = .ok () ↔
      0 < spot ∧ 0 < maturity ∧ 0 < steps ∧ 0 < paths ∧ 0 ≤ volatility) :=
  ⟨rfl, rfl, validate_parameters_ok_iff, validate_inputs_ok_iff⟩

/-! ## Witnesses -/

/-- Witness for C3 at a concrete one-step lattice. -/
theorem claim3_witness :
    (let probability := crr_probability (fun _ => 2) (fun _ => 1) 1 0 0 1 (Int.toNat 1)
     let discount := crr_discount (fun _ => 2) 1 0 (Int.toNat 1)
     let V : ℕ → ℕ → ℚ := fun i n => (([[2], [0, 1]] : List (List ℚ)).getD i []).getD n 0
     let continuation := discount *
       (probability * V (0 + 1) (0 + 1) + (1 - probability) * V (0 + 1) 0)
     V 0 0 =
       if false then
         max continuation
           (terminal_payoff .call 1 ((([[1], [1/2, 2]] : List (List ℚ)).getD 0 []).getD 0 0))
       else continuation) ∧
    (2 : ℚ) = (([[2], [0, 1]] : List (List ℚ)).getD 0 []).getD 0 0 :=
  claim3_backward_induction (fun _ => 2) (fun _ => 1) 1 1 1 0 1 0 1 .call false
    ⟨2, [[1], [1/2, 2]], [[2], [0, 1]]⟩ binomial_concrete_eval 0 0
    (by decide) (le_refl 0)

/-- Witness for C4: a parameter set whose risk-neutral probability is 11/8,
detected as arbitrage. -/
theorem claim4_witness :
    binomial_option_price (fun x => x + 2) (fun _ => 1) 1 1 1 2 1 1 .call false 0 =
      .error .arbitrage :=
  (claim4_arbitrage_iff (fun x => x + 2) (fun _ => 1) 1 1 1 2 1 0 1 .call false
    (by unfold _validate_parameters; norm_num)
    (by norm_num [crr_up, crr_dt])
    (by norm_num [crr_up, crr_down, crr_dt])).mpr
    (by norm_num [crr_probability, crr_growth, crr_up, crr_down, crr_dt])

/-- Witness for C5 at the same concrete one-step lattice. -/
theorem claim5_witness :
    ([[1], [1/2, 2]] : List (List ℚ)).length = Int.toNat 1 + 1 ∧
    (([[1], [1/2, 2]] : List (List ℚ)).getD 1 []).length = 1 + 1 ∧
    ([[1], [1/2, 2]] : List (List ℚ)).getD 0 [] = [1] ∧
    (([[1], [1/2, 2]] : List (List ℚ)).getD 1 []).getD 1 0 =
      1 * crr_up (fun _ => 2) (fun _ => 1) 1 1 (Int.toNat 1) ^ 1 *
        crr_down (fun _ => 2) (fun _ => 1) 1 1 (Int.toNat 1) ^ (1 - 1) :=
  claim5_asset_lattice (fun _ => 2) (fun _ => 1) 1 1 1 0 1 0 1 .call false
    ⟨2, [[1], [1/2, 2]], [[2], [0, 1]]⟩ binomial_concrete_eval 1 1
    (by decide) (le_refl 1)

/-- Witness for C6 at a concrete one-path simulation. -/
theorem claim6_witness :
    ([(2 : ℚ)] ≠ []) ∧
    (4 : ℚ) = 2 * ([(2 : ℚ)].sum) / (([(2 : ℚ)].length : ℚ)) :=
  claim6_discounted_mean (fun _ => 2) (fun _ => 1) (fun _ => 0) 1 1 0 1 1 1
    (fun p _ => p) ⟨4, [2], [[1, 2]]⟩ monte_carlo_concrete_eval

/-- Witness for C7: one path, one step, zero volatility and rate. -/
theorem claim7_witness :
    monte_carlo_option_price (fun _ => 1) (fun _ => 1) (fun _ => 5)
      2 3 0 0 1 1 (fun p _ => p) = .ok ⟨2, [2], [[2, 2]]⟩ :=
  claim7_single_deterministic_path (fun _ => 1) (fun _ => 1) (fun _ => 5) 2 3
    (fun p _ => p) (by norm_num) (by norm_num) rfl

/-- Witness for C8 at a concrete one-path simulation. -/
theorem claim8_witness :
    (([[(1 : ℚ), 2]].length : ℤ) = 1) ∧ (([(2 : ℚ)].length : ℤ) = 1) ∧
    ([(1 : ℚ), 2].length = Int.toNat 1 + 1) ∧ ([(1 : ℚ), 2].head? = some 1) :=
  claim8_path_shape (fun _ => 2) (fun _ => 1) (fun _ => 0) 1 1 0 1 1 1
    (fun p _ => p) ⟨4, [2], [[1, 2]]⟩ monte_carlo_concrete_eval
    [1, 2] (by simp)

/-- Witness for C10: concrete zero-volatility parameters reach the division
by zero. -/
theorem claim10_witness :
    binomial_option_price (fun x => x + 1) (fun _ => 1) 1 1 1 1 0 1 .call false 0 =
      .error .zeroDivision :=
  claim10_zero_volatility_division (fun x => x + 1) (fun _ => 1) 1 1 1 1 0 1
    .call false (by norm_num) (by norm_num) (by norm_num) (by norm_num)
    (by norm_num)

/-! ## Sandbox lemmas and claims -/

theorem allowedFunctions_not_mem_dunder (mathDir : List String)
    (id : String) (hd : dunder id = true) (hmax : id ≠ ("max"))
    (hmin : id ≠ ("min")) :
    id ∉ allowedFunctions mathDir := by
  intro hmem
  simp only [allowedFunctions, List.mem_append, List.mem_filter] at hmem
  rcases hmem with ⟨-, hfil⟩ | hm
  · rw [hd] at hfil
    exact absurd hfil (by decide)
  · simp only [List.mem_cons, List.not_mem_nil, or_false] at hm
    rcases hm with hm | hm
    · exact hmax hm
    · exact hmin hm

theorem allowedFunctions_mem_max (mathDir : List String) :
    ("max") ∈ allowedFunctions mathDir :=
  List.mem_append_right _ (by decide)

/-- Claim C1: how `compile_payoff` treats the spec's four probe
expressions.  A host-side `SyntaxError` (the fate of `"import os"`, which
is a statement, not an expression) becomes the invalid-expression error;
`__import__("os")` is rejected by the whitelist with the
function-not-allowed error; `max(price - 100, 0)` is accepted and its
compiled payoff returns `max(p - 100, 0)` on every input and in every
evaluation context; but `price.__class__` is ACCEPTED by the validator
(the `ast.Attribute` node kind is whitelisted and only call-position
attributes are checked), contradicting the claim that attribute access on
a non-math receiver is rejected at compile time. -/
theorem claim1_sandbox_compile (mathDir : List String) (msg : String)
    (ctx : EvalCtx) (p : ℚ) (path : List ℚ) :
    payoff_from_expression (.error msg) mathDir = .error (.invalidSyntax msg) ∧
    validateExpr mathDir importCallExpr =
      .error (.functionNotAllowed ("__import__")) ∧
    validateExpr mathDir maxCallExpr = .ok () ∧
    evalPayoff ctx maxCallExpr p path = .ok (max (p - 100) 0) ∧
    validateExpr mathDir priceClassExpr = .ok () := by
  have hni : ("__import__") ∉ allowedFunctions mathDir :=
    allowedFunctions_not_mem_dunder mathDir _ (by decide) (by decide)
      (by decide)
  have hmax := allowedFunctions_mem_max mathDir
  refine ⟨rfl, ?_, ?_, ?_, ?_⟩
  · simp [importCallExpr, validateExpr, vseq, hni]
  · simp [maxCallExpr, validateExpr, validateList, vseq, hmax]
  · simp [evalPayoff, evalExpr, evalArgs, lookupName, applyCallable,
      builtinMaxMin, asNums, toNum, numFold, pyBinOp, toFloat,
      Bind.bind, Except.bind, pure, Except.pure]
  · simp [priceClassExpr, validateExpr]

/-- Claim C2 counterexample: the expression `1 / price` compiles (the
validator accepts it), yet its payoff applied to the numerically
well-formed pair `price = 0`, `path = [0]` raises `ZeroDivisionError`
instead of yielding an infinity. -/
theorem claim2_counterexample :
    validateExpr testCtx.mathDir divPriceExpr = .ok () ∧
    evalPayoff testCtx divPriceExpr 0 [0] = .error .zeroDivision := by
  constructor
  · rfl
  · simp [evalPayoff, evalExpr, divPriceExpr, lookupName, pyBinOp, toNum,
      Bind.bind, Except.bind]

/-! ## The sandbox never fails name resolution on validated expressions -/

theorem vseq_ok {x y : Except ExprError Unit} :
    vseq x y = .ok () ↔ x = .ok () ∧ y = .ok () := by
  cases x with
  | error e => simp [vseq]
  | ok u => cases u; simp [vseq]

theorem isNameErrB_pure {α : Type} (v : α) :
    isNameErrB (pure v : Except EvalError α) = false := rfl

theorem isNameErrB_bind {α β : Type} {x : Except EvalError α}
    {f : α → Except EvalError β} (hx : isNameErrB x = false)
    (hf : ∀ a, isNameErrB (f a) = false) :
    isNameErrB (x >>= f) = false := by
  cases x with
  | error e =>
      simp only [Bind.bind, Except.bind]
      cases e <;> first | rfl | simp [isNameErrB] at hx
  | ok a =>
      simp only [Bind.bind, Except.bind]
      exact hf a

theorem isNameErrB_pyCompare (op : COp) (a b : PyVal) :
    isNameErrB (pyCompare op a b) = false := by
  unfold pyCompare
  repeat' split
  all_goals rfl

theorem isNameErrB_pyPow (powFrac : ℚ → ℚ → Except EvalError PyVal)
    (hpf : ∀ x y, isNameErrB (powFrac x y) = false) (x y : ℚ) :
    isNameErrB (pyPow powFrac x y) = false := by
  unfold pyPow
  repeat' split
  all_goals first | rfl | exact hpf x y

theorem isNameErrB_pyBinOp (powFrac : ℚ → ℚ → Except EvalError PyVal)
    (hpf : ∀ x y, isNameErrB (powFrac x y) = false) (op : AOp)
    (a b : PyVal) : isNameErrB (pyBinOp powFrac op a b) = false := by
  unfold pyBinOp
  repeat' split
  all_goals first | rfl | exact isNameErrB_pyPow powFrac hpf _ _

theorem isNameErrB_pyUnary (op : UOp) (a : PyVal) :
    isNameErrB (pyUnary op a) = false := by
  unfold pyUnary
  repeat' split
  all_goals rfl

theorem isNameErrB_builtinMaxMin (isMax : Bool) (args : List PyVal) :
    isNameErrB (builtinMaxMin isMax args) = false := by
  unfold builtinMaxMin
  repeat' split
  all_goals rfl

theorem isNameErrB_applyCallable (ctx : EvalCtx)
    (hmc : ∀ f args, isNameErrB (ctx.mathCall f args) = false)
    (v : PyVal) (args : List PyVal) :
    isNameErrB (applyCallable ctx v args) = false := by
  unfold applyCallable
  repeat' split
  all_goals first | rfl | exact isNameErrB_builtinMaxMin _ _ | exact hmc _ _

theorem isNameErrB_pyIndex (l : List PyVal) (i : ℚ) :
    isNameErrB (pyIndex l i) = false := by
  unfold pyIndex
  repeat' split
  all_goals rfl

theorem isNameErrB_pySliceElems (l : List PyVal) (lo hi : Option ℤ)
    (st : ℤ) : isNameErrB (pySliceElems l lo hi st) = false := by
  unfold pySliceElems
  repeat' split
  all_goals rfl

theorem isNameErrB_sliceBoundToInt : ∀ o : Option PyVal,
    isNameErrB (sliceBoundToInt o) = false
  | none => rfl
  | some v => by
      unfold sliceBoundToInt
      repeat' split
      all_goals rfl

theorem isNameErrB_toFloat (v : PyVal) : isNameErrB (toFloat v) = false := by
  cases v <;> rfl

theorem isNameErrB_lookupName (ctx : EvalCtx) (price : ℚ) (path : List ℚ)
    (id : String)
    (h : id = ("price") ∨ id = ("path") ∨
      (allowedFunctions ctx.mathDir).contains id = true) :
    isNameErrB (lookupName ctx price path id) = false := by
  unfold lookupName
  split
  · rfl
  · split
    · rfl
    · split
      · rfl
      · split
        · rfl
        · split
          · rfl
          · rename_i h1 h2 h3 h4 h5
            exfalso
            rcases h with h | h | h
            · exact h1 h
            · exact h2 h
            · have hmem : id ∈ allowedFunctions ctx.mathDir := by simpa using h
              simp only [allowedFunctions, List.mem_append] at hmem
              rcases hmem with hf | hm
              · exact h4 (by simpa using hf)
              · simp only [List.mem_cons, List.not_mem_nil, or_false] at hm
                exact h3 hm

mutual
/-- Evaluation of a validated expression never fails with a `NameError`,
provided the host pieces (math calls, `getattr`, fractional power) never do
- their Python counterparts raise `TypeError`/`ValueError`/
`AttributeError`/`OverflowError`, not `NameError`.  This is the sandbox
guarantee: every name the validator lets through is bound in the
restricted environment. -/
theorem noNameErr_evalExpr (ctx : EvalCtx)
    (hmc : ∀ f args, isNameErrB (ctx.mathCall f args) = false)
    (hga : ∀ v a, isNameErrB (ctx.getAttrImpl v a) = false)
    (hpf : ∀ x y, isNameErrB (ctx.powFrac x y) = false)
    (price : ℚ) (path : List ℚ) :
    ∀ e : PyExpr, validateExpr ctx.mathDir e = .ok () →
      isNameErrB (evalExpr ctx price path e) = false
  | .const c, _ => by cases c <;> rfl
  | .name id, h => by
      simp only [validateExpr] at h
      split at h
      · exact isNameErrB_lookupName ctx price path id (by assumption)
      · exact absurd h (by simp)
  | .binOp l op r, h => by
      simp only [validateExpr] at h
      obtain ⟨hl, hr⟩ := vseq_ok.mp h
      simp only [evalExpr]
      apply isNameErrB_bind (noNameErr_evalExpr ctx hmc hga hpf price path l hl)
      intro a
      apply isNameErrB_bind (noNameErr_evalExpr ctx hmc hga hpf price path r hr)
      intro b
      exact isNameErrB_pyBinOp ctx.powFrac hpf op a b
  | .unaryOp op e, h => by
      simp only [validateExpr] at h
      simp only [evalExpr]
      apply isNameErrB_bind (noNameErr_evalExpr ctx hmc hga hpf price path e h)
      intro a
      exact isNameErrB_pyUnary op a
  | .boolOp op es, h => by
      simp only [validateExpr] at h
      simp only [evalExpr]
      exact noNameErr_evalBoolChain ctx hmc hga hpf price path op es h
  | .compare l pairs, h => by
      simp only [validateExpr] at h
      obtain ⟨hl, hp⟩ := vseq_ok.mp h
      simp only [evalExpr]
      apply isNameErrB_bind (noNameErr_evalExpr ctx hmc hga hpf price path l hl)
      intro a
      exact noNameErr_evalCmpChain ctx hmc hga hpf price path pairs hp a
  | .ifExp t b e, h => by
      simp only [validateExpr] at h
      obtain ⟨ht, h2⟩ := vseq_ok.mp h
      obtain ⟨hb, he⟩ := vseq_ok.mp h2
      simp only [evalExpr]
      apply isNameErrB_bind (noNameErr_evalExpr ctx hmc hga hpf price path t ht)
      intro c
      split
      · exact noNameErr_evalExpr ctx hmc hga hpf price path b hb
      · exact noNameErr_evalExpr ctx hmc hga hpf price path e he
  | .call f args, h => by
      simp only [validateExpr] at h
      obtain ⟨-, h2⟩ := vseq_ok.mp h
      obtain ⟨hf, hargs⟩ := vseq_ok.mp h2
      simp only [evalExpr]
      apply isNameErrB_bind (noNameErr_evalExpr ctx hmc hga hpf price path f hf)
      intro fv
      apply isNameErrB_bind
        (noNameErr_evalArgs ctx hmc hga hpf price path args hargs)
      intro avs
      exact isNameErrB_applyCallable ctx hmc fv avs
  | .attrAccess v a, h => by
      simp only [validateExpr] at h
      simp only [evalExpr]
      apply isNameErrB_bind (noNameErr_evalExpr ctx hmc hga hpf price path v h)
      intro x
      exact hga x a
  | .subscript v sl, h => by
      simp only [validateExpr] at h
      obtain ⟨hv, hsl⟩ := vseq_ok.mp h
      simp only [evalExpr]
      apply isNameErrB_bind (noNameErr_evalExpr ctx hmc hga hpf price path v hv)
      intro x
      exact noNameErr_evalSubscript ctx hmc hga hpf price path sl hsl x
  | .listLit es, h => by
      simp only [validateExpr] at h
      simp only [evalExpr]
      apply isNameErrB_bind (noNameErr_evalArgs ctx hmc hga hpf price path es h)
      intro vs
      rfl
  | .tupleLit es, h => by
      simp only [validateExpr] at h
      simp only [evalExpr]
      apply isNameErrB_bind (noNameErr_evalArgs ctx hmc hga hpf price path es h)
      intro vs
      rfl
  | .unsupported s, h => by
      exact absurd h (by simp [validateExpr])

theorem noNameErr_evalArgs (ctx : EvalCtx)
    (hmc : ∀ f args, isNameErrB (ctx.mathCall f args) = false)
    (hga : ∀ v a, isNameErrB (ctx.getAttrImpl v a) = false)
    (hpf : ∀ x y, isNameErrB (ctx.powFrac x y) = false)
    (price : ℚ) (path : List ℚ) :
    ∀ es : List PyExpr, validateList ctx.mathDir es = .ok () →
      isNameErrB (evalArgs ctx price path es) = false
  | [], _ => rfl
  | e :: rest, h => by
      simp only [validateList] at h
      obtain ⟨he, hrest⟩ := vseq_ok.mp h
      simp only [evalArgs]
      apply isNameErrB_bind (noNameErr_evalExpr ctx hmc hga hpf price path e he)
      intro v
      apply isNameErrB_bind
        (noNameErr_evalArgs ctx hmc hga hpf price path rest hrest)
      intro vs
      rfl

theorem noNameErr_evalBoolChain (ctx : EvalCtx)
    (hmc : ∀ f args, isNameErrB (ctx.mathCall f args) = false)
    (hga : ∀ v a, isNameErrB (ctx.getAttrImpl v a) = false)
    (hpf : ∀ x y, isNameErrB (ctx.powFrac x y) = false)
    (price : ℚ) (path : List ℚ) (op : BOp) :
    ∀ es : List PyExpr, validateList ctx.mathDir es = .ok () →
      isNameErrB (evalBoolChain ctx price path op es) = false
  | [], _ => by cases op <;> rfl
  | [e], h => by
      simp only [validateList] at h
      obtain ⟨he, -⟩ := vseq_ok.mp h
      simp only [evalBoolChain]
      exact noNameErr_evalExpr ctx hmc hga hpf price path e he
  | e :: e2 :: rest, h => by
      simp only [validateList] at h
      obtain ⟨he, hrest⟩ := vseq_ok.mp h
      simp only [evalBoolChain]
      apply isNameErrB_bind (noNameErr_evalExpr ctx hmc hga hpf price path e he)
      intro v
      cases op with
      | and =>
          dsimp only
          split
          · exact noNameErr_evalBoolChain ctx hmc hga hpf price path .and
              (e2 :: rest) hrest
          · exact isNameErrB_pure v
      | or =>
          dsimp only
          split
          · exact isNameErrB_pure v
          · exact noNameErr_evalBoolChain ctx hmc hga hpf price path .or
              (e2 :: rest) hrest

theorem noNameErr_evalCmpChain (ctx : EvalCtx)
    (hmc : ∀ f args, isNameErrB (ctx.mathCall f args) = false)
    (hga : ∀ v a, isNameErrB (ctx.getAttrImpl v a) = false)
    (hpf : ∀ x y, isNameErrB (ctx.powFrac x y) = false)
    (price : ℚ) (path : List ℚ) :
    ∀ pairs : List (COp × PyExpr), validateCmpList ctx.mathDir pairs = .ok () →
      ∀ left, isNameErrB (evalCmpChain ctx price path left pairs) = false
  | [], _, _ => rfl
  | (op, e) :: rest, h, left => by
      simp only [validateCmpList] at h
      obtain ⟨he, hrest⟩ := vseq_ok.mp h
      simp only [evalCmpChain]
      apply isNameErrB_bind (noNameErr_evalExpr ctx hmc hga hpf price path e he)
      intro right
      apply isNameErrB_bind (isNameErrB_pyCompare op left right)
      intro b
      split
      · exact noNameErr_evalCmpChain ctx hmc hga hpf price path rest hrest right
      · rfl

theorem noNameErr_evalSubscript (ctx : EvalCtx)
    (hmc : ∀ f args, isNameErrB (ctx.mathCall f args) = false)
    (hga : ∀ v a, isNameErrB (ctx.getAttrImpl v a) = false)
    (hpf : ∀ x y, isNameErrB (ctx.powFrac x y) = false)
    (price : ℚ) (path : List ℚ) :
    ∀ sl : PySlice, validateSlice ctx.mathDir sl = .ok () →
      ∀ v, isNameErrB (evalSubscript ctx price path v sl) = false
  | .index e, h, v => by
      simp only [validateSlice] at h
      simp only [evalSubscript]
      apply isNameErrB_bind (noNameErr_evalExpr ctx hmc hga hpf price path e h)
      intro i
      split
      · exact isNameErrB_pyIndex _ _
      · exact isNameErrB_pyIndex _ _
      · rfl
  | .slice lo hi st, h, v => by
      simp only [validateSlice] at h
      obtain ⟨hlo, h2⟩ := vseq_ok.mp h
      obtain ⟨hhi, hst⟩ := vseq_ok.mp h2
      simp only [evalSubscript]
      apply isNameErrB_bind (noNameErr_evalBound ctx hmc hga hpf price path lo hlo)
      intro lo2
      apply isNameErrB_bind (noNameErr_evalBound ctx hmc hga hpf price path hi hhi)
      intro hi2
      apply isNameErrB_bind (noNameErr_evalBound ctx hmc hga hpf price path st hst)
      intro st2
      apply isNameErrB_bind (isNameErrB_sliceBoundToInt lo2)
      intro lo3
      apply isNameErrB_bind (isNameErrB_sliceBoundToInt hi2)
      intro hi3
      apply isNameErrB_bind (isNameErrB_sliceBoundToInt st2)
      intro st3
      split
      · apply isNameErrB_bind (isNameErrB_pySliceElems _ _ _ _)
        intro elems
        rfl
      · apply isNameErrB_bind (isNameErrB_pySliceElems _ _ _ _)
        intro elems
        rfl
      · rfl

theorem noNameErr_evalBound (ctx : EvalCtx)
    (hmc : ∀ f args, isNameErrB (ctx.mathCall f args) = false)
    (hga : ∀ v a, isNameErrB (ctx.getAttrImpl v a) = false)
    (hpf : ∀ x y, isNameErrB (ctx.powFrac x y) = false)
    (price : ℚ) (path : List ℚ) :
    ∀ o : Option PyExpr, validateOpt ctx.mathDir o = .ok () →
      isNameErrB (evalBound ctx price path o) = false
  | none, _ => rfl
  | some e, h => by
      simp only [validateOpt] at h
      simp only [evalBound]
      apply isNameErrB_bind (noNameErr_evalExpr ctx hmc hga hpf price path e h)
      intro v
      rfl
end

/-- Claim C2 amended: the payoff compiled from a validated expression can
raise runtime arithmetic errors (division by zero, domain, index errors -
see the counterexample), but it never fails name resolution: every name the
validator admits is bound in the restricted evaluation environment, for any
behaviour of the host math functions, `getattr` and fractional powers that
does not itself produce a `NameError` (Python's raise
`TypeError`/`ValueError`/`AttributeError`, never `NameError`). -/
theorem claim2_no_name_resolution (ctx : EvalCtx) (e : PyExpr)
    (price : ℚ) (path : List ℚ)
    (hmc : ∀ f args, isNameErrB (ctx.mathCall f args) = false)
    (hga : ∀ v a, isNameErrB (ctx.getAttrImpl v a) = false)
    (hpf : ∀ x y, isNameErrB (ctx.powFrac x y) = false)
    (hval : validateExpr ctx.mathDir e = .ok ()) :
    isNameErrB (evalPayoff ctx e price path) = false := by
  have h := noNameErr_evalExpr ctx hmc hga hpf price path e hval
  unfold evalPayoff
  split
  · rename_i err heq
    rw [heq] at h
    cases err <;> first | rfl | simp [isNameErrB] at h
  · exact isNameErrB_toFloat _

/-- Witness for the amended C2 at the concrete context and the compiled
`max(price - 100, 0)`. -/
theorem claim2_witness :
    isNameErrB (evalPayoff testCtx maxCallExpr 5 []) = false :=
  claim2_no_name_resolution testCtx maxCallExpr 5 []
    (fun _ _ => rfl) (fun _ _ => rfl) (fun _ _ => rfl) rfl

end OptionPricing
